import Mathlib

/-!
Verification of the Green-Scheduling simulator core: a shallow embedding of
the task data model (scheduler.py), the scheduling policies (algorithm.py),
the energy model (energy_monitor.py) and the simulation loop (simulation.py),
together with theorems settling the specification claims. Python floats are
modelled as rationals; Python object identity is modelled by a task store
indexed by `task_id`.
-/

namespace GreenSched

/-! ## Configuration constants (config.py) -/

def BASE_POWER_WATTS : ℚ := 5
def MAX_POWER_WATTS : ℚ := 15
def EMISSION_FACTOR_KG_CO2_PER_KWH : ℚ := 73 / 100
def POWER_COST_PER_KWH : ℚ := 8
def TIME_QUANTUM_MS : ℕ := 100
def SIMULATION_TIME : ℚ := 60

/-! ## Task data model (scheduler.py) -/

/-- TaskPriority enum: HIGH = 1, MEDIUM = 2, LOW = 3. -/
inductive TaskPriority where
  | HIGH
  | MEDIUM
  | LOW
deriving DecidableEq, Repr

/-- The `.value` of a TaskPriority member. -/
def TaskPriority.value : TaskPriority → ℕ
  | .HIGH => 1
  | .MEDIUM => 2
  | .LOW => 3

/-- The Task dataclass. `task_id` stands for the uuid string (unique per task);
`start_time`/`end_time` are `None` until the engine executes the task. -/
structure Task where
  task_id : ℕ
  duration : ℚ := 0
  priority : TaskPriority := .MEDIUM
  arrival_time : ℚ := 0
  start_time : Option ℚ := none
  end_time : Option ℚ := none
  cpu_requirement : ℚ := 50
  memory_requirement : ℚ := 256
deriving DecidableEq, Repr

/-- Task.get_wait_time: start_time - arrival_time when started, else 0.0. -/
def Task.get_wait_time (t : Task) : ℚ :=
  match t.start_time with
  | some s => s - t.arrival_time
  | none => 0

/-- Task.get_turnaround_time: end_time - arrival_time when finished, else 0.0. -/
def Task.get_turnaround_time (t : Task) : ℚ :=
  match t.end_time with
  | some e => e - t.arrival_time
  | none => 0

/-- Task.get_energy_consumption: power * duration joules, converted to kWh. -/
def Task.get_energy_consumption (t : Task) (power_watts : ℚ) : ℚ :=
  (power_watts * t.duration) / (3600 * 1000)

/-! ## Energy model (energy_monitor.py) -/

/-- EnergyMonitor.calculate_power_watts: linear model
Power = Base + (Max - Base) * (CPU% / 100). -/
def EnergyMonitor.calculate_power_watts (cpu_usage_percent : ℚ) : ℚ :=
  BASE_POWER_WATTS
    + (MAX_POWER_WATTS - BASE_POWER_WATTS) * (cpu_usage_percent / 100)

/-- A recorded reading, reduced to the fields the integration reads:
(timestamp in seconds, power_watts). -/
structure Reading where
  timestamp : ℚ
  power_watts : ℚ
deriving DecidableEq, Repr

/-- The loop body of EnergyMonitor.get_total_energy_kwh: for each consecutive
pair of readings accumulate power_i * (t_{i+1} - t_i) joules. -/
def totalJoules : List Reading → ℚ
  | current :: next_reading :: rest =>
      current.power_watts * (next_reading.timestamp - current.timestamp)
        + totalJoules (next_reading :: rest)
  | _ => 0

/-- EnergyMonitor.get_total_energy_kwh: integrate the readings log and convert
joules to kWh (1 kWh = 3,600,000 J). -/
def EnergyMonitor.get_total_energy_kwh (readings : List Reading) : ℚ :=
  totalJoules readings / 3600000

/-- The spec's description of the integration: the sum over consecutive pairs
of power_i * (t_{i+1} - t_i), converted to kWh (left-endpoint integration). -/
def specTotalEnergyKwh (readings : List Reading) : ℚ :=
  (((readings.zip readings.tail).map
      (fun p => p.1.power_watts * (p.2.timestamp - p.1.timestamp))).sum) / 3600000

/-! ## Scheduling policies (algorithm.py) -/

/-- Python's `min(tasks, key=k)` over a decidable strict comparison on keys:
scan left to right, replace the current minimum only on a strictly smaller
key, so the first minimal element wins. -/
def pythonMin (lt : Task → Task → Bool) (x : Task) (xs : List Task) : Task :=
  xs.foldl (fun acc y => if lt y acc then y else acc) x

/-- FCFSScheduler.schedule: the task at position 0, or None when empty. -/
def FCFSScheduler.schedule : List Task → Option Task
  | [] => none
  | t :: _ => some t

/-- SJFScheduler.schedule: `min(tasks, key=lambda t: t.duration)`. -/
def SJFScheduler.schedule : List Task → Option Task
  | [] => none
  | x :: xs => some (pythonMin (fun a b => a.duration < b.duration) x xs)

/-- Strict lexicographic comparison of Python tuples
`(priority.value, arrival_time)`. -/
def priorityKeyLt (a b : Task) : Bool :=
  a.priority.value < b.priority.value
    || (a.priority.value = b.priority.value && a.arrival_time < b.arrival_time)

/-- PriorityScheduler.schedule:
`min(tasks, key=lambda t: (t.priority.value, t.arrival_time))`. -/
def PriorityScheduler.schedule : List Task → Option Task
  | [] => none
  | x :: xs => some (pythonMin priorityKeyLt x xs)

/-- RoundRobinScheduler.schedule: stores a time quantum but selects exactly
like FCFS — the task at position 0, or None when empty. -/
def RoundRobinScheduler.schedule (time_quantum : ℕ) : List Task → Option Task
  | [] => none
  | t :: _ => some t

/-- Non-strict lexicographic order on the Python tuple
`(cpu_requirement, priority.value, arrival_time)`. -/
def energyKeyLe (a b : Task) : Prop :=
  a.cpu_requirement < b.cpu_requirement
    ∨ (a.cpu_requirement = b.cpu_requirement
        ∧ (a.priority.value < b.priority.value
            ∨ (a.priority.value = b.priority.value
                ∧ a.arrival_time ≤ b.arrival_time)))

instance : DecidableRel energyKeyLe := fun a b => by
  unfold energyKeyLe; infer_instance

/-- Insertion into a list sorted by `energyKeyLe` (stable, as Python's
`sorted` is). -/
def energyInsert (a : Task) : List Task → List Task
  | [] => [a]
  | b :: l => if energyKeyLe a b then a :: b :: l else b :: energyInsert a l

/-- Python's stable `sorted(tasks, key=lambda t: (t.cpu_requirement,
t.priority.value, t.arrival_time))`, realized as insertion sort. -/
def energySort : List Task → List Task
  | [] => []
  | a :: l => energyInsert a (energySort l)

/-- EnergyOptimizedScheduler.schedule: sort by
(cpu_requirement, priority.value, arrival_time) and take the first. -/
def EnergyOptimizedScheduler.schedule (tasks : List Task) : Option Task :=
  match energySort tasks with
  | [] => none
  | t :: _ => some t

/-- EnergyOptimizedScheduler.apply_dvfs: scale power by CPU-load band. -/
def EnergyOptimizedScheduler.apply_dvfs (current_power_watts cpu_usage : ℚ) : ℚ :=
  if cpu_usage < 30 then current_power_watts * (6 / 10)
  else if cpu_usage < 60 then current_power_watts * (8 / 10)
  else current_power_watts

/-! ## TaskQueue (scheduler.py) -/

/-- TaskQueue.get_next_task: dispatch on the algorithm name string; an
unrecognized name falls through to the FCFS default `self.tasks[0]`. -/
def TaskQueue.get_next_task (algorithm : String) (tasks : List Task) : Option Task :=
  match tasks with
  | [] => none
  | x :: xs =>
    if algorithm = "FCFS" then some x
    else if algorithm = "SJF" then
      some (pythonMin (fun a b => a.duration < b.duration) x xs)
    else if algorithm = "PriorityBased" then
      some (pythonMin priorityKeyLt x xs)
    else if algorithm = "EnergyOptimized" then
      some (pythonMin (fun a b => a.cpu_requirement < b.cpu_requirement) x xs)
    else some x

/-! ## Simulation engine (simulation.py, algorithm.py) -/

/-- The registered scheduler variants of Simulator.initialize_schedulers. -/
inductive Algorithm where
  | FCFS
  | SJF
  | PriorityBased
  | RoundRobin
  | EnergyOptimized
deriving DecidableEq, Repr

def Algorithm.name : Algorithm → String
  | .FCFS => "FCFS"
  | .SJF => "SJF"
  | .PriorityBased => "PriorityBased"
  | .RoundRobin => "RoundRobin"
  | .EnergyOptimized => "EnergyOptimized"

/-- Dispatch `scheduler.schedule(tasks)` to the variant's implementation. -/
def Algorithm.schedule : Algorithm → List Task → Option Task
  | .FCFS, tasks => FCFSScheduler.schedule tasks
  | .SJF, tasks => SJFScheduler.schedule tasks
  | .PriorityBased, tasks => PriorityScheduler.schedule tasks
  | .RoundRobin, tasks => RoundRobinScheduler.schedule TIME_QUANTUM_MS tasks
  | .EnergyOptimized, tasks => EnergyOptimizedScheduler.schedule tasks

/-- State of one policy run. `store` holds the Task objects themselves (the
Python heap: `run_all_simulations` hands every run the same `self.tasks`
objects, and `remaining_tasks = [t for t in tasks]` copies only the list of
references, so `remaining` is a list of task_ids into the shared store).
The scheduler's accumulator fields follow SchedulingAlgorithm.__init__. -/
structure SchedState where
  store : List Task
  remaining : List ℕ
  current_time : ℚ
  executed : List ℕ
  total_energy : ℚ
  total_wait : ℚ
  total_turnaround : ℚ
deriving DecidableEq, Repr

/-- Dereference a task_id in the shared store (first object carrying it). -/
def findTask (store : List Task) (i : ℕ) : Option Task :=
  store.find? (fun t => t.task_id = i)

/-- The Task objects the `remaining` references currently point at, in list
order: the `remaining_tasks` argument handed to `scheduler.schedule`. -/
def SchedState.remainingTasks (st : SchedState) : List Task :=
  st.remaining.filterMap (findTask st.store)

/-- SchedulingAlgorithm.execute_task plus the engine's bookkeeping around it:
write `start_time`/`end_time` on the selected object (visible through the
shared store), append it to `executed_tasks`, accrue energy and wait and
turnaround using the freshly written fields, advance the time cursor by the
task's duration and drop the reference from `remaining_tasks`. -/
def executeStep (st : SchedState) (t : Task) : SchedState :=
  let power_watts := EnergyMonitor.calculate_power_watts t.cpu_requirement
  let done : Task :=
    { t with start_time := some st.current_time
             end_time := some (st.current_time + t.duration) }
  { store := st.store.map (fun u => if u.task_id = t.task_id then done else u)
    remaining := st.remaining.erase t.task_id
    current_time := st.current_time + t.duration
    executed := st.executed ++ [t.task_id]
    total_energy := st.total_energy + done.get_energy_consumption power_watts
    total_wait := st.total_wait + done.get_wait_time
    total_turnaround := st.total_turnaround + done.get_turnaround_time }

/-- The while loop of Simulator.run_simulation_for_algorithm, with explicit
fuel standing for the unbounded iteration count: while the remaining list is
non-empty and the time cursor is below SIMULATION_TIME, select the next task
and execute it, or advance time by 0.1 when the policy returns None. -/
def runAux (algo : Algorithm) : ℕ → SchedState → SchedState
  | 0, st => st
  | fuel + 1, st =>
    if st.remaining ≠ [] ∧ st.current_time < SIMULATION_TIME then
      match algo.schedule st.remainingTasks with
      | some next_task => runAux algo fuel (executeStep st next_task)
      | none => runAux algo fuel { st with current_time := st.current_time + 1/10 }
    else st

/-- Simulator.run_simulation_for_algorithm: start from a fresh scheduler
accumulator, a fresh time cursor and a shallow copy of the task list (the
same Task objects), then run the loop. -/
def Simulator.run_simulation_for_algorithm
    (algo : Algorithm) (fuel : ℕ) (tasks : List Task) : SchedState :=
  runAux algo fuel
    { store := tasks
      remaining := tasks.map Task.task_id
      current_time := 0
      executed := []
      total_energy := 0
      total_wait := 0
      total_turnaround := 0 }

/-- The metrics dictionary of SchedulingAlgorithm.get_metrics. -/
structure Metrics where
  algorithm : String
  total_energy_kwh : ℚ
  tasks_executed : ℕ
  avg_wait_time : ℚ
  avg_turnaround_time : ℚ
  co2_emissions_kg : ℚ
deriving DecidableEq, Repr

/-- SchedulingAlgorithm.get_metrics, with the `if self.executed_tasks:`
guards of get_average_wait_time / get_average_turnaround_time. -/
def SchedState.get_metrics (st : SchedState) (name : String) : Metrics :=
  { algorithm := name
    total_energy_kwh := st.total_energy
    tasks_executed := st.executed.length
    avg_wait_time :=
      if st.executed ≠ [] then st.total_wait / st.executed.length else 0
    avg_turnaround_time :=
      if st.executed ≠ [] then st.total_turnaround / st.executed.length else 0
    co2_emissions_kg := st.total_energy * EMISSION_FACTOR_KG_CO2_PER_KWH }

/-- Two consecutive runs of Simulator.run_all_simulations: the second run is
handed the same `self.tasks` objects the first run worked on (only the list
was copied, not the Task objects), so it starts from the store the first run
left behind. -/
def runTwo (a1 a2 : Algorithm) (fuel : ℕ) (tasks : List Task) :
    SchedState × SchedState :=
  let s1 := Simulator.run_simulation_for_algorithm a1 fuel tasks
  let s2 := Simulator.run_simulation_for_algorithm a2 fuel s1.store
  (s1, s2)

/-! ## Concrete inputs used by counterexamples and witnesses -/

/-- Batch task A of the two-task shared-batch scenario: duration 2, arrival 0. -/
def shA : Task := { task_id := 0, duration := 2 }

/-- Batch task B of the two-task shared-batch scenario: duration 1, arrival 0. -/
def shB : Task := { task_id := 1, duration := 1 }

/-- Tied-duration task arriving late (arrival 5), listed first. -/
def tieLate : Task := { task_id := 0, duration := 1, arrival_time := 5 }

/-- Tied-duration task arriving first (arrival 0), listed second. -/
def tieEarly : Task := { task_id := 1, duration := 1, arrival_time := 0 }

/-- A single task arriving at time 5 (after the simulated clock starts). -/
def lateArrival : Task := { task_id := 0, duration := 1, arrival_time := 5 }

/-- A single task arriving at time 0, used for witnesses. -/
def zeroArrival : Task := { task_id := 0, duration := 1 }

/-- Spec scenario task A: duration 2, arrival 0, LOW priority, cpu 80. -/
def scA : Task := { task_id := 0, duration := 2, priority := .LOW, cpu_requirement := 80 }

/-- Spec scenario task B: duration 1, arrival 0, HIGH priority, cpu 20. -/
def scB : Task := { task_id := 1, duration := 1, priority := .HIGH, cpu_requirement := 20 }

/-- Spec scenario task C: duration 3, arrival 0, MEDIUM priority, cpu 50. -/
def scC : Task := { task_id := 2, duration := 3, priority := .MEDIUM, cpu_requirement := 50 }

/-- Invariant carried through the simulation loop for batches whose tasks all
arrive at time 0: the time cursor is non-negative and every stored task has
arrival_time 0, non-negative duration, and a non-negative start_time if any. -/
def BatchOk (st : SchedState) : Prop :=
  0 ≤ st.current_time
  ∧ ∀ t ∈ st.store,
      t.arrival_time = 0 ∧ 0 ≤ t.duration ∧ ∀ s, t.start_time = some s → 0 ≤ s

end GreenSched

namespace GreenSched

/-! ## Helper lemmas -/

theorem energyKeyLe_refl (a : Task) : energyKeyLe a a :=
  Or.inr ⟨rfl, Or.inr ⟨rfl, le_refl _⟩⟩

theorem energyKeyLe_total (a b : Task) : energyKeyLe a b ∨ energyKeyLe b a := by
  unfold energyKeyLe
  rcases lt_trichotomy a.cpu_requirement b.cpu_requirement with h | h | h
  · exact Or.inl (Or.inl h)
  · rcases lt_trichotomy a.priority.value b.priority.value with p | p | p
    · exact Or.inl (Or.inr ⟨h, Or.inl p⟩)
    · rcases le_total a.arrival_time b.arrival_time with q | q
      · exact Or.inl (Or.inr ⟨h, Or.inr ⟨p, q⟩⟩)
      · exact Or.inr (Or.inr ⟨h.symm, Or.inr ⟨p.symm, q⟩⟩)
    · exact Or.inr (Or.inr ⟨h.symm, Or.inl p⟩)
  · exact Or.inr (Or.inl h)

theorem energyKeyLe_trans {a b c : Task} (hab : energyKeyLe a b)
    (hbc : energyKeyLe b c) : energyKeyLe a c := by
  unfold energyKeyLe at *
  rcases hab with h1 | ⟨e1, h1⟩
  · rcases hbc with h2 | ⟨e2, h2⟩
    · exact Or.inl (h1.trans h2)
    · exact Or.inl (by rw [← e2]; exact h1)
  · rcases hbc with h2 | ⟨e2, h2⟩
    · exact Or.inl (by rw [e1]; exact h2)
    · refine Or.inr ⟨e1.trans e2, ?_⟩
      rcases h1 with p1 | ⟨f1, p1⟩
      · rcases h2 with p2 | ⟨f2, p2⟩
        · exact Or.inl (p1.trans p2)
        · exact Or.inl (by rw [← f2]; exact p1)
      · rcases h2 with p2 | ⟨f2, p2⟩
        · exact Or.inl (by rw [f1]; exact p2)
        · exact Or.inr ⟨f1.trans f2, p1.trans p2⟩

theorem mem_energyInsert {u a : Task} {l : List Task} :
    u ∈ energyInsert a l ↔ u = a ∨ u ∈ l := by
  induction l with
  | nil => simp [energyInsert]
  | cons b l ih =>
      by_cases h : energyKeyLe a b
      · simp [energyInsert, h]
      · simp only [energyInsert, if_neg h, List.mem_cons, ih]
        tauto

theorem energyInsert_ne_nil (a : Task) (l : List Task) : energyInsert a l ≠ [] := by
  cases l with
  | nil => simp [energyInsert]
  | cons b l =>
      by_cases h : energyKeyLe a b <;> simp [energyInsert, h]

theorem energySort_eq_nil {l : List Task} (h : energySort l = []) : l = [] := by
  cases l with
  | nil => rfl
  | cons a l => exact absurd h (energyInsert_ne_nil a (energySort l))

theorem energySort_head_min :
    ∀ (l : List Task) (t : Task) (r : List Task),
      energySort l = t :: r → t ∈ l ∧ ∀ u ∈ l, energyKeyLe t u
  | [], t, r, h => by simp [energySort] at h
  | a :: l, t, r, h => by
      rw [energySort] at h
      match hs : energySort l with
      | [] =>
          rw [hs] at h
          have hl : l = [] := energySort_eq_nil hs
          simp [energyInsert] at h
          subst hl
          refine ⟨by simp [h.1], ?_⟩
          intro u hu
          simp at hu
          rw [hu, h.1]
          exact energyKeyLe_refl t
      | m :: r' =>
          rw [hs] at h
          obtain ⟨hm, hmin⟩ := energySort_head_min l m r' hs
          by_cases hc : energyKeyLe a m
          · rw [energyInsert, if_pos hc] at h
            have ht : t = a := by injection h with h1 h2; exact h1.symm
            subst ht
            refine ⟨List.mem_cons_self _ _, ?_⟩
            intro u hu
            rcases List.mem_cons.mp hu with rfl | hu
            · exact energyKeyLe_refl u
            · exact energyKeyLe_trans hc (hmin u hu)
          · rw [energyInsert, if_neg hc] at h
            have ht : t = m := by injection h with h1 h2; exact h1.symm
            subst ht
            refine ⟨List.mem_cons_of_mem _ hm, ?_⟩
            intro u hu
            rcases List.mem_cons.mp hu with rfl | hu
            · rcases energyKeyLe_total u t with h' | h'
              · exact absurd h' hc
              · exact h'
            · exact hmin u hu

theorem pythonMin_lt_spec (key : Task → ℚ) :
    ∀ (xs : List Task) (x : Task),
      ∃ l₁ l₂,
        x :: xs = l₁ ++ pythonMin (fun a b => key a < key b) x xs :: l₂
        ∧ (∀ u ∈ l₁, key (pythonMin (fun a b => key a < key b) x xs) < key u)
        ∧ (∀ u ∈ x :: xs, key (pythonMin (fun a b => key a < key b) x xs) ≤ key u)
  | [], x => by
      refine ⟨[], [], by simp [pythonMin], by simp, ?_⟩
      intro u hu
      simp only [List.mem_singleton] at hu
      subst hu
      simp [pythonMin]
  | y :: xs, x => by
      by_cases h : key y < key x
      · obtain ⟨l₁, l₂, heq, hstrict, hmin⟩ := pythonMin_lt_spec key xs y
        have heval : pythonMin (fun a b => key a < key b) x (y :: xs)
            = pythonMin (fun a b => key a < key b) y xs := by
          simp [pythonMin, h]
        rw [heval]
        have hry : key (pythonMin (fun a b => key a < key b) y xs) ≤ key y :=
          hmin y (List.mem_cons_self _ _)
        refine ⟨x :: l₁, l₂, by rw [List.cons_append, ← heq], ?_, ?_⟩
        · intro u hu
          rcases List.mem_cons.mp hu with rfl | hu
          · exact lt_of_le_of_lt hry h
          · exact hstrict u hu
        · intro u hu
          rcases List.mem_cons.mp hu with rfl | hu
          · exact le_of_lt (lt_of_le_of_lt hry h)
          · exact hmin u hu
      · obtain ⟨l₁, l₂, heq, hstrict, hmin⟩ := pythonMin_lt_spec key xs x
        have heval : pythonMin (fun a b => key a < key b) x (y :: xs)
            = pythonMin (fun a b => key a < key b) x xs := by
          simp [pythonMin, h]
        rw [heval]
        have hxy : key x ≤ key y := not_lt.mp h
        have hrx : key (pythonMin (fun a b => key a < key b) x xs) ≤ key x :=
          hmin x (List.mem_cons_self _ _)
        have hminall :
            ∀ u ∈ x :: y :: xs, key (pythonMin (fun a b => key a < key b) x xs) ≤ key u := by
          intro u hu
          rcases List.mem_cons.mp hu with rfl | hu
          · exact hrx
          rcases List.mem_cons.mp hu with rfl | hu
          · exact hrx.trans hxy
          · exact hmin u (List.mem_cons_of_mem _ hu)
        cases l₁ with
        | nil =>
            have hx : x = pythonMin (fun a b => key a < key b) x xs := by
              simpa using congrArg (fun l => l.head?) heq
            refine ⟨[], y :: xs, ?_, by simp, hminall⟩
            simp [← hx]
        | cons a l₁' =>
            have ha : x = a := by
              simpa using congrArg (fun l => l.head?) heq
            subst ha
            have hxs : xs = l₁' ++ pythonMin (fun a b => key a < key b) x xs :: l₂ := by
              simpa using heq
            have hstrx : key (pythonMin (fun a b => key a < key b) x xs) < key x :=
              hstrict x (List.mem_cons_self _ _)
            refine ⟨x :: y :: l₁', l₂, ?_, ?_, hminall⟩
            · rw [List.cons_append, List.cons_append, ← hxs]
            · intro u hu
              rcases List.mem_cons.mp hu with rfl | hu
              · exact hstrx
              rcases List.mem_cons.mp hu with rfl | hu
              · exact lt_of_lt_of_le hstrx hxy
              · exact hstrict u (List.mem_cons_of_mem _ hu)

theorem pythonMin_mem (lt : Task → Task → Bool) :
    ∀ (xs : List Task) (x : Task), pythonMin lt x xs ∈ x :: xs
  | [], x => by simp [pythonMin]
  | y :: xs, x => by
      have h := pythonMin_mem lt xs (if lt y x then y else x)
      have heval : pythonMin lt x (y :: xs)
          = pythonMin lt (if lt y x then y else x) xs := rfl
      rw [heval]
      rcases List.mem_cons.mp h with h' | h'
      · rw [h']
        by_cases hb : lt y x <;> simp [hb]
      · simp [List.mem_cons, Or.inr (Or.inr h')]

theorem schedule_mem {algo : Algorithm} {l : List Task} {t : Task}
    (h : algo.schedule l = some t) : t ∈ l := by
  cases algo with
  | FCFS =>
      cases l with
      | nil => simp [Algorithm.schedule, FCFSScheduler.schedule] at h
      | cons x xs =>
          simp [Algorithm.schedule, FCFSScheduler.schedule] at h
          subst h
          exact List.mem_cons_self _ _
  | SJF =>
      cases l with
      | nil => simp [Algorithm.schedule, SJFScheduler.schedule] at h
      | cons x xs =>
          simp [Algorithm.schedule, SJFScheduler.schedule] at h
          subst h
          exact pythonMin_mem _ xs x
  | PriorityBased =>
      cases l with
      | nil => simp [Algorithm.schedule, PriorityScheduler.schedule] at h
      | cons x xs =>
          simp [Algorithm.schedule, PriorityScheduler.schedule] at h
          subst h
          exact pythonMin_mem _ xs x
  | RoundRobin =>
      cases l with
      | nil => simp [Algorithm.schedule, RoundRobinScheduler.schedule] at h
      | cons x xs =>
          simp [Algorithm.schedule, RoundRobinScheduler.schedule] at h
          subst h
          exact List.mem_cons_self _ _
  | EnergyOptimized =>
      simp only [Algorithm.schedule, EnergyOptimizedScheduler.schedule] at h
      match hs : energySort l with
      | [] => rw [hs] at h; simp at h
      | m :: r =>
          rw [hs] at h
          simp at h
          subst h
          exact (energySort_head_min l m r hs).1

theorem batchOk_executeStep {st : SchedState} {t : Task}
    (h : BatchOk st) (ht : t ∈ st.store) : BatchOk (executeStep st t) := by
  obtain ⟨htime, hstore⟩ := h
  obtain ⟨harr, hdur, _⟩ := hstore t ht
  constructor
  · simpa [executeStep] using add_nonneg htime hdur
  · intro u hu
    simp only [executeStep, List.mem_map] at hu
    obtain ⟨v, hv, hvu⟩ := hu
    by_cases hid : v.task_id = t.task_id
    · rw [if_pos hid] at hvu
      subst hvu
      refine ⟨harr, hdur, ?_⟩
      intro s hs
      simp at hs
      rw [← hs]
      exact htime
    · rw [if_neg hid] at hvu
      subst hvu
      exact hstore v hv

theorem batchOk_runAux (algo : Algorithm) :
    ∀ (fuel : ℕ) (st : SchedState), BatchOk st → BatchOk (runAux algo fuel st)
  | 0, st, h => h
  | fuel + 1, st, h => by
      rw [runAux]
      by_cases hc : st.remaining ≠ [] ∧ st.current_time < SIMULATION_TIME
      · rw [if_pos hc]
        match hsch : algo.schedule st.remainingTasks with
        | some t =>
            have htmem : t ∈ st.store := by
              have h1 := schedule_mem hsch
              unfold SchedState.remainingTasks at h1
              obtain ⟨i, _, hfind⟩ := List.mem_filterMap.mp h1
              exact List.mem_of_find?_eq_some hfind
            exact batchOk_runAux algo fuel _ (batchOk_executeStep h htmem)
        | none =>
            refine batchOk_runAux algo fuel _ ⟨?_, h.2⟩
            have := h.1
            norm_num
            linarith
      · rw [if_neg hc]
        exact h

theorem totalJoules_eq_pairSum :
    ∀ l : List Reading,
      totalJoules l
        = ((l.zip l.tail).map
            (fun p => p.1.power_watts * (p.2.timestamp - p.1.timestamp))).sum
  | [] => by simp [totalJoules]
  | [a] => by simp [totalJoules]
  | a :: b :: rest => by
      have ih := totalJoules_eq_pairSum (b :: rest)
      simp only [List.tail_cons] at ih
      simp only [totalJoules, List.tail_cons, List.zip_cons_cons, List.map_cons,
        List.sum_cons]
      rw [ih]

/-! ## Claim theorems -/

/-- C1 (code_bug evaluation): `run_all_simulations` hands every policy run the
same Task objects — `remaining_tasks = [t for t in tasks]` copies only the
list — so the second run overwrites the `start_time`/`end_time` the first run
wrote. Concretely, over the batch [shA (duration 2), shB (duration 1)], the
SJF run sets shB's start_time to 0 (end_time 1), and the following FCFS run
on the same objects resets shB's start_time to 2 (end_time 3). -/
theorem shared_batch_second_run_overwrites :
    findTask (runTwo .SJF .FCFS 10 [shA, shB]).1.store 1
        = some { shB with start_time := some 0, end_time := some 1 }
    ∧ findTask (runTwo .SJF .FCFS 10 [shA, shB]).2.store 1
        = some { shB with start_time := some 2, end_time := some 3 } := by
  norm_num [runTwo, Simulator.run_simulation_for_algorithm, runAux, executeStep,
    SchedState.remainingTasks, findTask, Algorithm.schedule, FCFSScheduler.schedule,
    SJFScheduler.schedule, pythonMin,
    SIMULATION_TIME, EnergyMonitor.calculate_power_watts, BASE_POWER_WATTS,
    MAX_POWER_WATTS, Task.get_energy_consumption, Task.get_wait_time,
    Task.get_turnaround_time, shA, shB, List.erase, List.filterMap, List.find?]

/-- C2 (counterexample): with two tasks of equal duration where the later
arrival is listed first, SJF's `min(tasks, key=lambda t: t.duration)` returns
the first-listed task, not the one with the earliest arrival_time, refuting
the claimed arrival-time tie-break. -/
theorem sjf_tiebreak_ignores_arrival_cex :
    SJFScheduler.schedule [tieLate, tieEarly] = some tieLate
    ∧ tieLate.duration = tieEarly.duration
    ∧ tieEarly.arrival_time < tieLate.arrival_time
    ∧ tieLate ≠ tieEarly := by
  decide

/-- C2 (amended): for every non-empty ready list, SJF's select returns a task
of minimum duration; ties are broken by position in the list (the first
minimal-duration task wins) — arrival_time is never consulted. -/
theorem sjf_selects_first_minimal_duration (l : List Task) (h : l ≠ []) :
    ∃ t l₁ l₂, SJFScheduler.schedule l = some t ∧ l = l₁ ++ t :: l₂
      ∧ (∀ u ∈ l₁, t.duration < u.duration)
      ∧ (∀ u ∈ l, t.duration ≤ u.duration) := by
  match l with
  | [] => exact absurd rfl h
  | x :: xs =>
      obtain ⟨l₁, l₂, heq, hstrict, hmin⟩ := pythonMin_lt_spec Task.duration xs x
      exact ⟨_, l₁, l₂, rfl, heq, hstrict, hmin⟩

/-- Witness for the amended C2 theorem at the concrete two-task tie. -/
theorem sjf_selects_first_minimal_duration_witness :
    ([tieLate, tieEarly] : List Task) ≠ []
    ∧ ∃ t l₁ l₂, SJFScheduler.schedule [tieLate, tieEarly] = some t
        ∧ [tieLate, tieEarly] = l₁ ++ t :: l₂
        ∧ (∀ u ∈ l₁, t.duration < u.duration)
        ∧ (∀ u ∈ [tieLate, tieEarly], t.duration ≤ u.duration) :=
  ⟨by decide, sjf_selects_first_minimal_duration [tieLate, tieEarly] (by decide)⟩

/-- C3 (counterexample): there is no arrival gating in the engine — a task
arriving at time 5 is selected at simulated time 0, so its start_time (0) is
set strictly below its arrival_time (5), refuting the claimed invariant. -/
theorem engine_start_time_below_arrival_cex :
    (Simulator.run_simulation_for_algorithm .FCFS 5 [lateArrival]).store
        = [{ lateArrival with start_time := some 0, end_time := some 1 }]
    ∧ (0 : ℚ) < lateArrival.arrival_time := by
  constructor
  · norm_num [Simulator.run_simulation_for_algorithm, runAux, executeStep,
      SchedState.remainingTasks, findTask, Algorithm.schedule, FCFSScheduler.schedule,
      SIMULATION_TIME, EnergyMonitor.calculate_power_watts, BASE_POWER_WATTS,
      MAX_POWER_WATTS, Task.get_energy_consumption, Task.get_wait_time,
      Task.get_turnaround_time, lateArrival, List.erase, List.filterMap, List.find?]
  · decide

/-- C3 (amended): the engine sets start_time to its current time cursor, which
never goes below 0; hence start_time ≥ arrival_time holds for every batch
whose tasks all arrive at time 0 (with unset start_time and non-negative
duration), but not in general, because tasks are selectable before their
arrival time. -/
theorem engine_start_time_ge_arrival_when_arrivals_zero
    (algo : Algorithm) (fuel : ℕ) (tasks : List Task)
    (h : ∀ t ∈ tasks, t.arrival_time = 0 ∧ t.start_time = none ∧ 0 ≤ t.duration) :
    ∀ t ∈ (Simulator.run_simulation_for_algorithm algo fuel tasks).store,
      ∀ s, t.start_time = some s → t.arrival_time ≤ s := by
  have h0 : BatchOk
      { store := tasks, remaining := tasks.map Task.task_id, current_time := 0,
        executed := [], total_energy := 0, total_wait := 0, total_turnaround := 0 } := by
    refine ⟨le_refl 0, ?_⟩
    intro t ht
    obtain ⟨h1, h2, h3⟩ := h t ht
    exact ⟨h1, h3, fun s hs => by rw [h2] at hs; cases hs⟩
  have hfin := batchOk_runAux algo fuel _ h0
  intro t ht s hs
  obtain ⟨harr, _, hst⟩ := hfin.2 t ht
  rw [harr]
  exact hst s hs

/-- Witness for the amended C3 theorem: a zero-arrival batch run under FCFS
yields a task whose written start_time 0 satisfies arrival_time ≤ 0. -/
theorem engine_start_time_ge_arrival_witness :
    (∀ t ∈ [zeroArrival], t.arrival_time = 0 ∧ t.start_time = none ∧ 0 ≤ t.duration)
    ∧ ({ zeroArrival with start_time := some 0, end_time := some 1 } : Task).arrival_time ≤ 0 :=
  ⟨by decide,
    engine_start_time_ge_arrival_when_arrivals_zero .FCFS 3 [zeroArrival] (by decide)
      { zeroArrival with start_time := some 0, end_time := some 1 }
      (by norm_num [Simulator.run_simulation_for_algorithm, runAux, executeStep,
            SchedState.remainingTasks, findTask, Algorithm.schedule,
            FCFSScheduler.schedule, SIMULATION_TIME,
            EnergyMonitor.calculate_power_watts, BASE_POWER_WATTS, MAX_POWER_WATTS,
            Task.get_energy_consumption, Task.get_wait_time, Task.get_turnaround_time,
            zeroArrival, List.erase, List.filterMap, List.find?])
      0 rfl⟩

/-- C4: for every non-empty ready list, EnergyOptimized's select returns a
task minimizing the lexicographic key (cpu_requirement, priority rank,
arrival_time), where the priority ranks are HIGH = 1 < MEDIUM = 2 < LOW = 3. -/
theorem energy_opt_selects_lex_min (l : List Task) (h : l ≠ []) :
    TaskPriority.HIGH.value = 1 ∧ TaskPriority.MEDIUM.value = 2
    ∧ TaskPriority.LOW.value = 3
    ∧ ∃ t, EnergyOptimizedScheduler.schedule l = some t ∧ t ∈ l
        ∧ ∀ u ∈ l, energyKeyLe t u := by
  refine ⟨rfl, rfl, rfl, ?_⟩
  match hs : energySort l with
  | [] => exact absurd (energySort_eq_nil hs) h
  | t :: r =>
      obtain ⟨hmem, hmin⟩ := energySort_head_min l t r hs
      refine ⟨t, ?_, hmem, hmin⟩
      simp [EnergyOptimizedScheduler.schedule, hs]

/-- Witness for C4 at the spec's concrete three-task scenario, where the
greenest task (cpu 20) must come out first. -/
theorem energy_opt_selects_lex_min_witness :
    ([scA, scB, scC] : List Task) ≠ []
    ∧ TaskPriority.HIGH.value = 1 ∧ TaskPriority.MEDIUM.value = 2
    ∧ TaskPriority.LOW.value = 3
    ∧ ∃ t, EnergyOptimizedScheduler.schedule [scA, scB, scC] = some t
        ∧ t ∈ [scA, scB, scC] ∧ ∀ u ∈ [scA, scB, scC], energyKeyLe t u :=
  ⟨by decide, energy_opt_selects_lex_min [scA, scB, scC] (by decide)⟩

/-- C5 (code_bug evaluation): TaskQueue.get_next_task with an unregistered
algorithm name ("LIFO") does not fail — it silently returns exactly what the
FCFS branch returns (the task at position 0). -/
theorem unknown_policy_silent_fcfs_default :
    TaskQueue.get_next_task "LIFO" [shA, shB] = some shA
    ∧ TaskQueue.get_next_task "LIFO" [shA, shB]
        = TaskQueue.get_next_task "FCFS" [shA, shB]
    ∧ "LIFO" ∉ (["FCFS", "SJF", "PriorityBased", "RoundRobin", "EnergyOptimized"]
        : List String) := by
  decide

/-- C6: RoundRobin's select coincides with FCFS's select on every task list,
for every configured time quantum — the quantum never influences selection. -/
theorem roundrobin_schedule_eq_fcfs (time_quantum : ℕ) (tasks : List Task) :
    RoundRobinScheduler.schedule time_quantum tasks
      = FCFSScheduler.schedule tasks := by
  cases tasks <;> rfl

/-- C7: the total-energy computation equals the sum over consecutive pairs of
power_i * (t_{i+1} - t_i) divided by 3,600,000 (left-endpoint integration),
and is exactly zero for logs of fewer than 2 readings. -/
theorem total_energy_left_endpoint_integration (readings : List Reading) :
    EnergyMonitor.get_total_energy_kwh readings = specTotalEnergyKwh readings
    ∧ (readings.length < 2 → EnergyMonitor.get_total_energy_kwh readings = 0) := by
  constructor
  · unfold EnergyMonitor.get_total_energy_kwh specTotalEnergyKwh
    rw [totalJoules_eq_pairSum]
  · intro hlen
    rcases readings with _ | ⟨a, _ | ⟨b, rest⟩⟩
    · norm_num [EnergyMonitor.get_total_energy_kwh, totalJoules]
    · norm_num [EnergyMonitor.get_total_energy_kwh, totalJoules]
    · simp at hlen
      omega

/-- Witness for C7's short-log clause at a one-reading log. -/
theorem total_energy_short_log_witness :
    ([⟨0, 5⟩] : List Reading).length < 2
    ∧ EnergyMonitor.get_total_energy_kwh [⟨0, 5⟩] = 0 :=
  ⟨by decide, (total_energy_left_endpoint_integration [⟨0, 5⟩]).2 (by decide)⟩

/-- C8: the linear power model hits base_power at usage 0 and max_power at
usage 100 exactly, and is monotone non-decreasing on [0, 100]. -/
theorem power_model_endpoints_and_monotone :
    EnergyMonitor.calculate_power_watts 0 = BASE_POWER_WATTS
    ∧ EnergyMonitor.calculate_power_watts 100 = MAX_POWER_WATTS
    ∧ ∀ u1 u2 : ℚ, 0 ≤ u1 → u1 ≤ u2 → u2 ≤ 100 →
        EnergyMonitor.calculate_power_watts u1
          ≤ EnergyMonitor.calculate_power_watts u2 := by
  refine ⟨?_, ?_, ?_⟩
  · norm_num [EnergyMonitor.calculate_power_watts, BASE_POWER_WATTS, MAX_POWER_WATTS]
  · norm_num [EnergyMonitor.calculate_power_watts, BASE_POWER_WATTS, MAX_POWER_WATTS]
  · intro u1 u2 h0 h12 h100
    unfold EnergyMonitor.calculate_power_watts BASE_POWER_WATTS MAX_POWER_WATTS
    norm_num
    linarith

/-- Witness for C8's monotonicity clause at usages 30 and 70. -/
theorem power_model_monotone_witness :
    (0 : ℚ) ≤ 30 ∧ (30 : ℚ) ≤ 70 ∧ (70 : ℚ) ≤ 100
    ∧ EnergyMonitor.calculate_power_watts 30
        ≤ EnergyMonitor.calculate_power_watts 70 :=
  ⟨by norm_num, by norm_num, by norm_num,
    power_model_endpoints_and_monotone.2.2 30 70 (by norm_num) (by norm_num)
      (by norm_num)⟩

/-- C9: a policy run over the empty batch leaves the loop immediately for any
amount of fuel and yields metrics with tasks_executed 0, total energy 0 and
both averages 0 (the empty-guard branches, not a division by zero). -/
theorem empty_batch_run_zero_metrics (algo : Algorithm) (fuel : ℕ) :
    (Simulator.run_simulation_for_algorithm algo fuel []).get_metrics algo.name
      = { algorithm := algo.name, total_energy_kwh := 0, tasks_executed := 0,
          avg_wait_time := 0, avg_turnaround_time := 0, co2_emissions_kg := 0 } := by
  have hrun : Simulator.run_simulation_for_algorithm algo fuel []
      = { store := [], remaining := [], current_time := 0, executed := [],
          total_energy := 0, total_wait := 0, total_turnaround := 0 } := by
    unfold Simulator.run_simulation_for_algorithm
    cases fuel with
    | zero => rfl
    | succ n => simp [runAux]
  rw [hrun]
  simp [SchedState.get_metrics]

/-- C10: on a never-executed task, get_wait_time returns 0 when start_time is
unset and get_turnaround_time returns 0 when end_time is unset; both accessors
are total. -/
theorem unset_outcome_accessors_return_zero (t : Task) :
    (t.start_time = none → t.get_wait_time = 0)
    ∧ (t.end_time = none → t.get_turnaround_time = 0) := by
  refine ⟨fun h => ?_, fun h => ?_⟩
  · simp [Task.get_wait_time, h]
  · simp [Task.get_turnaround_time, h]

/-- Witness for C10 at a concrete never-executed task. -/
theorem unset_outcome_accessors_witness :
    (zeroArrival.start_time = none ∧ zeroArrival.get_wait_time = 0)
    ∧ (zeroArrival.end_time = none ∧ zeroArrival.get_turnaround_time = 0) :=
  ⟨⟨rfl, (unset_outcome_accessors_return_zero zeroArrival).1 rfl⟩,
    ⟨rfl, (unset_outcome_accessors_return_zero zeroArrival).2 rfl⟩⟩

end GreenSched
